import Mathlib

/-!
Shallow embedding of the `pyth-min` crate: the byte-level decoders in
`src/messages.rs` and `src/price_update.rs`, and the price validation layer.

Modelling conventions:
* a Rust byte slice is a `List Nat` (each entry a byte value);
* machine integers are `Nat` / `Int`; signedness is made explicit by
  `toSigned`; `i64` saturation and conversion are explicit functions;
* a Rust `panic!` / failed `assert!` / failed slice index is `none` in an
  `Option`-valued result; `Result<T, GetPriceError>` is `Except GetPriceError T`.
-/

set_option maxRecDepth 8000

namespace PythMin

/-- Rust range indexing `v[a..b]`: panics (`none`) unless `a ≤ b ∧ b ≤ v.len()`. -/
def slice (v : List Nat) (a b : Nat) : Option (List Nat) :=
  if a ≤ b ∧ b ≤ v.length then some ((v.drop a).take (b - a)) else none

/-- `copy_from_slice` into an `n`-byte array: panics (`none`) on length mismatch. -/
def copy_from_slice (n : Nat) (bytes : List Nat) : Option (List Nat) :=
  if bytes.length = n then some bytes else none

/-- The unsigned little-endian value of a byte list (first byte least significant). -/
def leNat (bytes : List Nat) : Nat :=
  bytes.foldr (fun b acc => b + 256 * acc) 0

/-- Reinterpret an unsigned `w`-bit value as a two's-complement signed integer. -/
def toSigned (w : Nat) (n : Nat) : Int :=
  if n < 2 ^ (w - 1) then (n : Int) else (n : Int) - 2 ^ w

/-- `byte_utils::interpret_bytes_as_i64`: `copy_from_slice` into `[0u8; 8]`
(panic unless exactly 8 bytes), then `i64::from_le_bytes`. -/
def interpret_bytes_as_i64 (bytes : List Nat) : Option Int :=
  if bytes.length = 8 then some (toSigned 64 (leNat bytes)) else none

/-- `byte_utils::interpret_bytes_as_i32`: 4 bytes, little-endian, signed. -/
def interpret_bytes_as_i32 (bytes : List Nat) : Option Int :=
  if bytes.length = 4 then some (toSigned 32 (leNat bytes)) else none

/-- `byte_utils::interpret_bytes_as_u64`: 8 bytes, little-endian, unsigned. -/
def interpret_bytes_as_u64 (bytes : List Nat) : Option Nat :=
  if bytes.length = 8 then some (leNat bytes) else none

/-- Round `off` up to the next multiple of `align` (C struct field alignment). -/
def alignUp (off align : Nat) : Nat :=
  ((off + align - 1) / align) * align

/-- `repr(C)` struct size for a field list of `(size, align)` pairs: lay the
fields out in order, aligning each, then pad the total to the struct's
alignment (the maximum field alignment). -/
def reprCSize (fields : List (Nat × Nat)) : Nat :=
  alignUp (fields.foldl (fun off f => alignUp off f.2 + f.1) 0)
    (fields.foldl (fun m f => max m f.2) 1)

/-- The `(size, align)` pairs of `PriceFeedMessage`'s fields in declaration
order: `feed_id: [u8; 32]`, `price: i64`, `conf: u64`, `exponent: i32`,
`publish_time: i64`, `prev_publish_time: i64`, `ema_price: i64`, `ema_conf: u64`. -/
def priceFeedMessageFields : List (Nat × Nat) :=
  [(32, 1), (8, 8), (8, 8), (4, 4), (8, 8), (8, 8), (8, 8), (8, 8)]

/-- `std::mem::size_of::<PriceFeedMessage>()` under `repr(C)`. -/
def priceFeedMessageSize : Nat := reprCSize priceFeedMessageFields

/-- `messages::PriceFeedMessage` (field types: `[u8; 32]`, `i64`, `u64`, `i32`,
`i64`, `i64`, `i64`, `u64`). -/
structure PriceFeedMessage where
  feed_id : List Nat
  price : Int
  conf : Nat
  exponent : Int
  publish_time : Int
  prev_publish_time : Int
  ema_price : Int
  ema_conf : Nat
deriving DecidableEq, Repr

/-- `PriceFeedMessage::get_feed_from_bytes`: assert the slice length equals
`size_of::<PriceFeedMessage>()`, then read the fields at fixed offsets. -/
def PriceFeedMessage.get_feed_from_bytes (v : List Nat) : Option PriceFeedMessage :=
  if v.length = priceFeedMessageSize then
    (slice v 0 32 >>= copy_from_slice 32).bind fun feed_id =>
    (slice v 32 40 >>= interpret_bytes_as_i64).bind fun price =>
    (slice v 40 48 >>= interpret_bytes_as_u64).bind fun conf =>
    (slice v 48 52 >>= interpret_bytes_as_i32).bind fun exponent =>
    (slice v 52 60 >>= interpret_bytes_as_i64).bind fun publish_time =>
    (slice v 60 68 >>= interpret_bytes_as_i64).bind fun prev_publish_time =>
    (slice v 68 76 >>= interpret_bytes_as_i64).bind fun ema_price =>
    (slice v 76 84 >>= interpret_bytes_as_u64).bind fun ema_conf =>
    some { feed_id, price, conf, exponent, publish_time, prev_publish_time,
           ema_price, ema_conf }
  else none

/-- `price_update::VerificationLevel`. -/
inductive VerificationLevel where
  | Partial (num_signatures : Nat)
  | Full
deriving DecidableEq, Repr

/-- `VerificationLevel::gte`: `Full` dominates everything; `Partial` compares
by number of signatures and never dominates `Full`. -/
def VerificationLevel.gte (self : VerificationLevel) (other : VerificationLevel) : Bool :=
  match self with
  | .Full => true
  | .Partial num_signatures =>
    match other with
    | .Full => false
    | .Partial other_num_signatures => decide (num_signatures ≥ other_num_signatures)

/-- `VerificationLevel::get_verification_from_bytes`: assert length 1 or 2;
first byte `0x01` means `Full`, `0x00` means `Partial` with the second byte as
signature count (panic when absent), any other first byte panics. -/
def VerificationLevel.get_verification_from_bytes (v : List Nat) : Option VerificationLevel :=
  if v.length = 1 ∨ v.length = 2 then
    match v.head? with
    | some 1 => some .Full
    | some 0 => (v.get? 1).map fun num_signatures => .Partial num_signatures
    | _ => none
  else none

/-- `price_update::PriceUpdateV2`. -/
structure PriceUpdateV2 where
  write_authority : List Nat
  verification_level : VerificationLevel
  price_message : PriceFeedMessage
  posted_slot : Nat
deriving DecidableEq, Repr

/-- `PriceUpdateV2::get_price_update_v2_from_bytes`: copy the 32-byte write
authority, peek byte 32 to decide whether the verification level takes one
byte (`0x01`, i.e. `Full`) or two, then decode the trust tag, the price
message and the posted slot at the resulting offsets. -/
def PriceUpdateV2.get_price_update_v2_from_bytes (v : List Nat) : Option PriceUpdateV2 :=
  (slice v 0 32 >>= copy_from_slice 32).bind fun write_authority =>
  (v.get? 32).bind fun b32 =>
  let verification_one_byte := b32 == 1
  (if verification_one_byte then
      slice v 32 33 >>= VerificationLevel.get_verification_from_bytes
    else
      slice v 32 34 >>= VerificationLevel.get_verification_from_bytes).bind
    fun verification_level =>
  (if verification_one_byte then
      slice v 33 117 >>= PriceFeedMessage.get_feed_from_bytes
    else
      slice v 34 118 >>= PriceFeedMessage.get_feed_from_bytes).bind
    fun price_message =>
  (if verification_one_byte then
      slice v 117 125 >>= interpret_bytes_as_u64
    else
      slice v 118 126 >>= interpret_bytes_as_u64).bind
    fun posted_slot =>
  some { write_authority, verification_level, price_message, posted_slot }

/-- `error::GetPriceError`. -/
inductive GetPriceError where
  | PriceTooOld
  | MismatchedFeedId
  | InsufficientVerificationLevel
  | FeedIdMustBe32Bytes
  | FeedIdNonHexCharacter
deriving DecidableEq, Repr

/-- `price_update::Price`. -/
structure Price where
  price : Int
  conf : Nat
  exponent : Int
  publish_time : Int
deriving DecidableEq, Repr

/-- `PriceUpdateV2::get_price_unchecked`: optional feed-id equality check,
then project the four public fields of the message. -/
def PriceUpdateV2.get_price_unchecked (self : PriceUpdateV2)
    (feed_id : Option (List Nat)) : Except GetPriceError Price :=
  match feed_id with
  | some f =>
    if self.price_message.feed_id ≠ f then
      .error .MismatchedFeedId
    else
      .ok { price := self.price_message.price, conf := self.price_message.conf,
            exponent := self.price_message.exponent,
            publish_time := self.price_message.publish_time }
  | none =>
    .ok { price := self.price_message.price, conf := self.price_message.conf,
          exponent := self.price_message.exponent,
          publish_time := self.price_message.publish_time }

def I64_MIN : Int := -9223372036854775808

def I64_MAX : Int := 9223372036854775807

/-- Rust `i64::saturating_add`: clamp the exact sum into the `i64` range. -/
def saturating_add_i64 (a b : Int) : Int :=
  max I64_MIN (min I64_MAX (a + b))

/-- Rust `u64 -> i64` `try_into`: succeeds exactly when the value fits;
`.unwrap()` of the failure case is a panic (`none`). -/
def u64_try_into_i64 (n : Nat) : Option Int :=
  if (n : Int) ≤ I64_MAX then some (n : Int) else none

/-- `PriceUpdateV2::get_price_no_older_than_with_custom_verification_level`:
trust check first, then the feed-id check via `get_price_unchecked`, then the
staleness check `publish_time.saturating_add(maximum_age.try_into().unwrap()) >= unix_timestamp`.
The outer `Option` is `none` exactly when the `unwrap` panics. -/
def PriceUpdateV2.get_price_no_older_than_with_custom_verification_level
    (self : PriceUpdateV2) (unix_timestamp : Int) (maximum_age : Nat)
    (feed_id : Option (List Nat)) (verification_level : VerificationLevel) :
    Option (Except GetPriceError Price) :=
  if ¬ self.verification_level.gte verification_level then
    some (.error .InsufficientVerificationLevel)
  else
    match self.get_price_unchecked feed_id with
    | .error e => some (.error e)
    | .ok price =>
      (u64_try_into_i64 maximum_age).bind fun age =>
      if ¬ (saturating_add_i64 price.publish_time age ≥ unix_timestamp) then
        some (.error .PriceTooOld)
      else
        some (.ok price)

/-- `PriceUpdateV2::get_price_no_older_than`: the custom-level variant with
`VerificationLevel::Full`. -/
def PriceUpdateV2.get_price_no_older_than (self : PriceUpdateV2)
    (unix_timestamp : Int) (maximum_age : Nat) (feed_id : Option (List Nat)) :
    Option (Except GetPriceError Price) :=
  self.get_price_no_older_than_with_custom_verification_level unix_timestamp
    maximum_age feed_id .Full

/-- The §8 literal Full-trust mainnet record with its first 8 bytes (the
Anchor discriminator) stripped: 126 bytes, of which the decoder consumes 125. -/
def fullRecordBytes : List Nat :=
  [96, 49, 71, 4, 52, 13, 237, 223, 55, 31, 212, 36, 114, 20, 143, 36, 142,
   157, 26, 109, 26, 94, 178, 172, 58, 205, 139, 127, 213, 214, 178, 67, 1,
   239, 13, 139, 111, 218, 44, 235, 164, 29, 161, 93, 64, 149, 209, 218, 57,
   42, 13, 47, 142, 208, 198, 199, 188, 15, 76, 250, 200, 194, 128, 181, 109,
   16, 127, 200, 227, 3, 0, 0, 0, 73, 167, 85, 1, 0, 0, 0, 0, 248, 255, 255,
   255, 49, 73, 99, 102, 0, 0, 0, 0, 48, 73, 99, 102, 0, 0, 0, 0, 140, 196,
   39, 237, 3, 0, 0, 0, 155, 20, 3, 1, 0, 0, 0, 0, 221, 237, 30, 16, 0, 0, 0,
   0, 0]

/-- Bytes 41..129 of the same account data: the 88-byte region that the
`messages.rs` unit test feeds directly to `get_feed_from_bytes`. -/
def fullMessageBytes : List Nat :=
  [239, 13, 139, 111, 218, 44, 235, 164, 29, 161, 93, 64, 149, 209, 218, 57,
   42, 13, 47, 142, 208, 198, 199, 188, 15, 76, 250, 200, 194, 128, 181, 109,
   16, 127, 200, 227, 3, 0, 0, 0, 73, 167, 85, 1, 0, 0, 0, 0, 248, 255, 255,
   255, 49, 73, 99, 102, 0, 0, 0, 0, 48, 73, 99, 102, 0, 0, 0, 0, 140, 196,
   39, 237, 3, 0, 0, 0, 155, 20, 3, 1, 0, 0, 0, 0, 221, 237, 30, 16]

/-- A concrete decoded record used to instantiate the validator theorems. -/
def sampleRecord : PriceUpdateV2 :=
  { write_authority := List.replicate 32 0,
    verification_level := .Full,
    price_message :=
      { feed_id := List.replicate 32 0, price := 42, conf := 3, exponent := -8,
        publish_time := 1000, prev_publish_time := 999, ema_price := 41,
        ema_conf := 2 },
    posted_slot := 7 }

/-- A successful `slice` returns exactly `b - a` bytes. -/
theorem slice_length {v : List Nat} {a b : Nat} {w : List Nat}
    (h : slice v a b = some w) : w.length = b - a := by
  unfold slice at h
  split at h
  · rename_i hc
    cases h
    simp only [List.length_take, List.length_drop]
    omega
  · cases h

theorem priceFeedMessageSize_eq : priceFeedMessageSize = 88 := by decide

/-- The message decoder aborts on every slice whose length is not 88. -/
theorem get_feed_from_bytes_of_ne {v : List Nat} (h : v.length ≠ 88) :
    PriceFeedMessage.get_feed_from_bytes v = none := by
  unfold PriceFeedMessage.get_feed_from_bytes
  rw [priceFeedMessageSize_eq, if_neg h]

/-- Feeding any 84-byte slice of a buffer to the message decoder aborts. -/
theorem slice_bind_feed_none (v : List Nat) (a b : Nat) (hab : b - a = 84) :
    (slice v a b >>= PriceFeedMessage.get_feed_from_bytes) = none := by
  cases h : slice v a b with
  | none => rfl
  | some w =>
    have hw := slice_length h
    have : w.length ≠ 88 := by omega
    simpa using get_feed_from_bytes_of_ne this

theorem bind_const_none {α β : Type} (x : Option α) :
    (x.bind fun _ => (none : Option β)) = none := by
  cases x <;> rfl

/-- The record decoder aborts on every input: both of its message regions are
84 bytes wide, and the message decoder insists on 88. -/
theorem decode_eq_none (v : List Nat) :
    PriceUpdateV2.get_price_update_v2_from_bytes v = none := by
  have h1 := slice_bind_feed_none v 33 117 rfl
  have h2 := slice_bind_feed_none v 34 118 rfl
  simp [PriceUpdateV2.get_price_update_v2_from_bytes, h1, h2, bind_const_none]

/-- C1: decoding the literal Full-trust record of spec §8 (discriminator
stripped) is claimed to yield the listed field values; in fact the record
decoder panics on this very input, because it hands `get_feed_from_bytes` an
84-byte region while `size_of::<PriceFeedMessage>()` is 88 under `repr(C)`.
This theorem evaluates the code at the failing input. -/
theorem c1_full_record_decode_aborts :
    PriceUpdateV2.get_price_update_v2_from_bytes fullRecordBytes = none ∧
    priceFeedMessageSize = 88 := by
  exact ⟨decode_eq_none fullRecordBytes, priceFeedMessageSize_eq⟩

/-- C2 counterexample: the claim says an exactly-84-byte slice is the valid
input shape; on a concrete 84-byte slice the decoder aborts instead of
returning a message. -/
theorem c2_84_byte_input_aborts :
    PriceFeedMessage.get_feed_from_bytes (List.replicate 84 0) = none :=
  get_feed_from_bytes_of_ne (by decide)

/-- C2 (amended): for every byte slice of exactly 88 bytes (the `repr(C)`
size of the struct, 4 bytes of which are trailing padding), the decoder
returns the message whose eight fields are the little-endian values at
offsets 0, 32, 40, 48, 52, 60, 68, 76; any other length aborts. -/
theorem c2_feed_decoder_fields (v : List Nat) :
    (v.length = 88 →
      PriceFeedMessage.get_feed_from_bytes v = some
        { feed_id := (v.drop 0).take 32,
          price := toSigned 64 (leNat ((v.drop 32).take 8)),
          conf := leNat ((v.drop 40).take 8),
          exponent := toSigned 32 (leNat ((v.drop 48).take 4)),
          publish_time := toSigned 64 (leNat ((v.drop 52).take 8)),
          prev_publish_time := toSigned 64 (leNat ((v.drop 60).take 8)),
          ema_price := toSigned 64 (leNat ((v.drop 68).take 8)),
          ema_conf := leNat ((v.drop 76).take 8) }) ∧
    (v.length ≠ 88 → PriceFeedMessage.get_feed_from_bytes v = none) := by
  constructor
  · intro h
    simp [PriceFeedMessage.get_feed_from_bytes, priceFeedMessageSize_eq, h,
      slice, copy_from_slice, interpret_bytes_as_i64, interpret_bytes_as_i32,
      interpret_bytes_as_u64, List.length_take, List.length_drop]
  · exact get_feed_from_bytes_of_ne

/-- Witness for C2 (amended), on the 88-byte region the repository's own unit
test extracts from the mainnet account, and on a wrong-length slice. -/
theorem c2_feed_decoder_fields_witness :
    PriceFeedMessage.get_feed_from_bytes fullMessageBytes = some
      { feed_id := (fullMessageBytes.drop 0).take 32,
        price := toSigned 64 (leNat ((fullMessageBytes.drop 32).take 8)),
        conf := leNat ((fullMessageBytes.drop 40).take 8),
        exponent := toSigned 32 (leNat ((fullMessageBytes.drop 48).take 4)),
        publish_time := toSigned 64 (leNat ((fullMessageBytes.drop 52).take 8)),
        prev_publish_time := toSigned 64 (leNat ((fullMessageBytes.drop 60).take 8)),
        ema_price := toSigned 64 (leNat ((fullMessageBytes.drop 68).take 8)),
        ema_conf := leNat ((fullMessageBytes.drop 76).take 8) } ∧
    PriceFeedMessage.get_feed_from_bytes (List.replicate 84 0) = none :=
  ⟨(c2_feed_decoder_fields fullMessageBytes).1 (by decide),
   (c2_feed_decoder_fields (List.replicate 84 0)).2 (by decide)⟩

/-- C3: the record decoder never returns a value: whichever branch is taken,
the message region it slices is 84 bytes, and `get_feed_from_bytes` asserts
the length equals `size_of::<PriceFeedMessage>()`, which the `repr(C)` layout
computation puts at 88; shorter inputs abort earlier on slicing. -/
theorem c3_record_decoder_never_returns :
    priceFeedMessageSize = 88 ∧
    ∀ v : List Nat, PriceUpdateV2.get_price_update_v2_from_bytes v = none :=
  ⟨priceFeedMessageSize_eq, decode_eq_none⟩

/-- C7: `VerificationLevel::gte` implements the stated total preorder:
`Full` dominates everything, no `Partial` dominates `Full`, and two `Partial`
values compare by their signature counts. -/
theorem c7_gte_total_preorder :
    VerificationLevel.Full.gte .Full = true ∧
    (∀ n : Nat, VerificationLevel.Full.gte (.Partial n) = true) ∧
    (∀ n : Nat, (VerificationLevel.Partial n).gte .Full = false) ∧
    (∀ a b : Nat, (VerificationLevel.Partial a).gte (.Partial b) = decide (a ≥ b)) :=
  ⟨rfl, fun _ => rfl, fun _ => rfl, fun _ _ => rfl⟩

/-- C8: on every 1- or 2-byte slice, the trust-level decoder returns `Full`
when the first byte is 1 (ignoring any second byte), `Partial` of the second
byte when the first byte is 0 and a second byte is present, and aborts both
on the one-byte slice `[0]` and on any unknown first byte. -/
theorem c8_trust_level_decoder (b : Nat) (rest : List Nat) (hlen : rest.length ≤ 1) :
    (b = 1 → VerificationLevel.get_verification_from_bytes (b :: rest) = some .Full) ∧
    (∀ n : Nat, b = 0 → rest = [n] →
      VerificationLevel.get_verification_from_bytes (b :: rest) = some (.Partial n)) ∧
    (b = 0 → rest = [] →
      VerificationLevel.get_verification_from_bytes (b :: rest) = none) ∧
    (b ≠ 0 → b ≠ 1 →
      VerificationLevel.get_verification_from_bytes (b :: rest) = none) := by
  refine ⟨?_, ?_, ?_, ?_⟩
  · rintro rfl
    rcases rest with _ | ⟨x, _ | ⟨y, t⟩⟩
    · rfl
    · rfl
    · simp at hlen
  · rintro n rfl rfl
    rfl
  · rintro rfl rfl
    rfl
  · intro h0 h1
    rcases rest with _ | ⟨x, _ | ⟨y, t⟩⟩
    · exact match b, h0, h1 with
      | 0, h0, _ => absurd rfl h0
      | 1, _, h1 => absurd rfl h1
      | n + 2, _, _ => rfl
    · exact match b, h0, h1 with
      | 0, h0, _ => absurd rfl h0
      | 1, _, h1 => absurd rfl h1
      | n + 2, _, _ => rfl
    · simp at hlen

/-- Witness for C8 at the concrete slice `[0, 7]`. -/
theorem c8_trust_level_decoder_witness :
    ((0 : Nat) = 1 → VerificationLevel.get_verification_from_bytes [0, 7] = some .Full) ∧
    (∀ n : Nat, (0 : Nat) = 0 → [(7 : Nat)] = [n] →
      VerificationLevel.get_verification_from_bytes [0, 7] = some (.Partial n)) ∧
    ((0 : Nat) = 0 → [(7 : Nat)] = ([] : List Nat) →
      VerificationLevel.get_verification_from_bytes [0, 7] = none) ∧
    ((0 : Nat) ≠ 0 → (0 : Nat) ≠ 1 →
      VerificationLevel.get_verification_from_bytes [0, 7] = none) :=
  c8_trust_level_decoder 0 [7] (by decide)

/-- Definitional unfolding of `get_price_unchecked` at an absent feed id. -/
theorem get_price_unchecked_none (self : PriceUpdateV2) :
    self.get_price_unchecked none = .ok
      { price := self.price_message.price, conf := self.price_message.conf,
        exponent := self.price_message.exponent,
        publish_time := self.price_message.publish_time } := rfl

/-- Definitional unfolding of `get_price_unchecked` at a supplied feed id. -/
theorem get_price_unchecked_some (self : PriceUpdateV2) (f : List Nat) :
    self.get_price_unchecked (some f) =
      if self.price_message.feed_id ≠ f then .error .MismatchedFeedId
      else .ok
        { price := self.price_message.price, conf := self.price_message.conf,
          exponent := self.price_message.exponent,
          publish_time := self.price_message.publish_time } := rfl

/-- C9: `get_price_unchecked` fails with `MismatchedFeedId` exactly when a
feed id is supplied and differs from the message's; otherwise it returns the
four projected fields, and it can emit no other error. -/
theorem c9_price_unchecked (self : PriceUpdateV2) (feed_id : Option (List Nat)) :
    (self.get_price_unchecked feed_id = .error .MismatchedFeedId ↔
      ∃ f, feed_id = some f ∧ f ≠ self.price_message.feed_id) ∧
    ((feed_id = none ∨ feed_id = some self.price_message.feed_id) →
      self.get_price_unchecked feed_id = .ok
        { price := self.price_message.price, conf := self.price_message.conf,
          exponent := self.price_message.exponent,
          publish_time := self.price_message.publish_time }) ∧
    (∀ e : GetPriceError, self.get_price_unchecked feed_id = .error e →
      e = .MismatchedFeedId) := by
  rcases feed_id with _ | f
  · rw [get_price_unchecked_none]
    refine ⟨⟨fun hc => ?_, fun hex => ?_⟩, fun _ => rfl, fun e he => ?_⟩
    · cases hc
    · rcases hex with ⟨f', hf', _⟩
      exact Option.noConfusion hf'
    · cases he
  · rw [get_price_unchecked_some]
    by_cases h : self.price_message.feed_id = f
    · subst h
      rw [if_neg (fun hne => hne rfl)]
      refine ⟨⟨fun hc => ?_, fun hex => ?_⟩, fun _ => rfl, fun e he => ?_⟩
      · cases hc
      · rcases hex with ⟨f', hf', hne⟩
        injection hf' with hf'
        exact absurd hf'.symm hne
      · cases he
    · rw [if_pos h]
      refine ⟨⟨fun _ => ⟨f, rfl, fun hf => h hf.symm⟩, fun _ => rfl⟩, ?_, fun e he => ?_⟩
      · rintro (hc | hc)
        · exact Option.noConfusion hc
        · injection hc with hc
          exact absurd hc.symm h
      · injection he with he
        exact he.symm

/-- Witness for C9 at a record and a mismatched feed id. -/
theorem c9_price_unchecked_witness :
    (sampleRecord.get_price_unchecked (some (List.replicate 32 1)) =
        .error .MismatchedFeedId ↔
      ∃ f, (some (List.replicate 32 1) : Option (List Nat)) = some f ∧
        f ≠ sampleRecord.price_message.feed_id) ∧
    (((some (List.replicate 32 1) : Option (List Nat)) = none ∨
        (some (List.replicate 32 1) : Option (List Nat)) =
          some sampleRecord.price_message.feed_id) →
      sampleRecord.get_price_unchecked (some (List.replicate 32 1)) = .ok
        { price := sampleRecord.price_message.price,
          conf := sampleRecord.price_message.conf,
          exponent := sampleRecord.price_message.exponent,
          publish_time := sampleRecord.price_message.publish_time }) ∧
    (∀ e : GetPriceError,
      sampleRecord.get_price_unchecked (some (List.replicate 32 1)) = .error e →
      e = .MismatchedFeedId) :=
  c9_price_unchecked sampleRecord (some (List.replicate 32 1))

/-- A record identical to `sampleRecord` but with `Partial` trust. -/
def partialRecord : PriceUpdateV2 :=
  { sampleRecord with verification_level := .Partial 3 }

/-- A record whose publish time is `i64::MIN`. -/
def minTimeRecord : PriceUpdateV2 :=
  { sampleRecord with
    price_message := { sampleRecord.price_message with publish_time := I64_MIN } }

/-- `get_price_unchecked` succeeds with the projected price whenever the feed
id is absent or byte-equal to the message's. -/
theorem get_price_unchecked_feed_ok {self : PriceUpdateV2}
    {feed_id : Option (List Nat)}
    (hfeed : feed_id = none ∨ feed_id = some self.price_message.feed_id) :
    self.get_price_unchecked feed_id = .ok
      { price := self.price_message.price, conf := self.price_message.conf,
        exponent := self.price_message.exponent,
        publish_time := self.price_message.publish_time } := by
  rcases hfeed with rfl | rfl
  · exact get_price_unchecked_none self
  · rw [get_price_unchecked_some, if_neg (fun hne => hne rfl)]

/-- Any price returned by `get_price_unchecked` carries the message's
publish time. -/
theorem get_price_unchecked_ok_publish_time {self : PriceUpdateV2}
    {feed_id : Option (List Nat)} {p : Price}
    (h : self.get_price_unchecked feed_id = .ok p) :
    p.publish_time = self.price_message.publish_time := by
  rcases feed_id with _ | f
  · rw [get_price_unchecked_none] at h
    injection h with h
    rw [← h]
  · rw [get_price_unchecked_some] at h
    split at h
    · cases h
    · injection h with h
      rw [← h]

/-- Unfolding of the validator when the trust check fails. -/
theorem get_price_custom_insufficient {self : PriceUpdateV2}
    {lvl : VerificationLevel} (h : self.verification_level.gte lvl = false)
    (now : Int) (maximum_age : Nat) (feed_id : Option (List Nat)) :
    self.get_price_no_older_than_with_custom_verification_level now maximum_age
      feed_id lvl = some (.error .InsufficientVerificationLevel) := by
  unfold PriceUpdateV2.get_price_no_older_than_with_custom_verification_level
  rw [if_pos (by rw [h]; exact Bool.false_ne_true)]

/-- Unfolding of the validator when the trust check passes and
`get_price_unchecked` fails. -/
theorem get_price_custom_err {self : PriceUpdateV2} {lvl : VerificationLevel}
    (htrust : self.verification_level.gte lvl = true)
    {feed_id : Option (List Nat)} {e : GetPriceError}
    (herr : self.get_price_unchecked feed_id = .error e)
    (now : Int) (maximum_age : Nat) :
    self.get_price_no_older_than_with_custom_verification_level now maximum_age
      feed_id lvl = some (.error e) := by
  unfold PriceUpdateV2.get_price_no_older_than_with_custom_verification_level
  rw [if_neg (fun hc => hc htrust), herr]

/-- Unfolding of the validator when the trust check passes and
`get_price_unchecked` succeeds. -/
theorem get_price_custom_ok {self : PriceUpdateV2} {lvl : VerificationLevel}
    (htrust : self.verification_level.gte lvl = true)
    {feed_id : Option (List Nat)} {p : Price}
    (hok : self.get_price_unchecked feed_id = .ok p)
    (now : Int) (maximum_age : Nat) :
    self.get_price_no_older_than_with_custom_verification_level now maximum_age
      feed_id lvl =
      (u64_try_into_i64 maximum_age).bind fun age =>
        if ¬ (saturating_add_i64 p.publish_time age ≥ now) then
          some (.error .PriceTooOld)
        else some (.ok p) := by
  unfold PriceUpdateV2.get_price_no_older_than_with_custom_verification_level
  rw [if_neg (fun hc => hc htrust), hok]

/-- The `u64 -> i64` conversion succeeds on every representable age. -/
theorem u64_try_into_i64_of_le {maximum_age : Nat}
    (hma : (maximum_age : Int) ≤ I64_MAX) :
    u64_try_into_i64 maximum_age = some (maximum_age : Int) := by
  unfold u64_try_into_i64
  rw [if_pos hma]

/-- Saturating addition of a nonnegative offset never hits the lower clamp:
it equals the exact sum capped at `i64::MAX`. -/
theorem saturating_add_eq_min (a b : Int) (ha : I64_MIN ≤ a) (hb : 0 ≤ b) :
    saturating_add_i64 a b = min (a + b) I64_MAX := by
  simp only [saturating_add_i64, I64_MIN, I64_MAX, max_def, min_def] at *
  split_ifs <;> omega

/-- C4 counterexample: the claim says the staleness bound "never overflows,
wraps, or aborts even for arbitrarily large max_age"; at
`max_age = 2^63 = 9223372036854775808` (which exceeds `i64::MAX`) the
`maximum_age.try_into().unwrap()` conversion panics before any saturating
addition happens. -/
theorem c4_large_max_age_aborts :
    sampleRecord.get_price_no_older_than_with_custom_verification_level 0
      9223372036854775808 none .Full = none := rfl

/-- C4 (amended): for every `max_age ≤ i64::MAX` the call never aborts and
the staleness bound used in the comparison is exactly
`min(publish_time + max_age, i64::MAX)` in exact integer arithmetic; for
`max_age > i64::MAX` the `u64 -> i64` conversion panics. -/
theorem c4_saturating_bound (self : PriceUpdateV2) (now : Int)
    (maximum_age : Nat) (feed_id : Option (List Nat)) (lvl : VerificationLevel)
    (hma : (maximum_age : Int) ≤ I64_MAX)
    (hpt : I64_MIN ≤ self.price_message.publish_time) :
    self.get_price_no_older_than_with_custom_verification_level now maximum_age
      feed_id lvl =
      some (if ¬ self.verification_level.gte lvl then
          .error .InsufficientVerificationLevel
        else
          match self.get_price_unchecked feed_id with
          | .error e => .error e
          | .ok price =>
            if min (price.publish_time + maximum_age) I64_MAX < now then
              .error .PriceTooOld
            else .ok price) := by
  by_cases hg : self.verification_level.gte lvl = true
  · rw [if_neg (fun hc => hc hg)]
    cases hp : self.get_price_unchecked feed_id with
    | error e =>
      rw [get_price_custom_err hg hp now maximum_age]
    | ok price =>
      rw [get_price_custom_ok hg hp now maximum_age,
        u64_try_into_i64_of_le hma, Option.some_bind]
      have hpub := get_price_unchecked_ok_publish_time hp
      rw [saturating_add_eq_min _ _ (by rw [hpub]; exact hpt)
        (Int.natCast_nonneg _)]
      show (if ¬ (min (price.publish_time + (maximum_age : Int)) I64_MAX ≥ now) then
          some (Except.error GetPriceError.PriceTooOld)
        else some (Except.ok price)) =
        some (if min (price.publish_time + (maximum_age : Int)) I64_MAX < now then
          Except.error GetPriceError.PriceTooOld
        else Except.ok price)
      by_cases hlt : min (price.publish_time + (maximum_age : Int)) I64_MAX < now
      · rw [if_pos (not_le.mpr hlt), if_pos hlt]
      · rw [if_neg (fun hc => hc (not_lt.mp hlt)), if_neg hlt]
  · have hg' : self.verification_level.gte lvl = false := by
      revert hg
      cases self.verification_level.gte lvl <;> simp
    rw [get_price_custom_insufficient hg' now maximum_age feed_id,
      if_pos (by rw [hg']; exact Bool.false_ne_true)]

/-- Witness for C4 (amended) at a concrete record, `now = 0`, `max_age = 5`. -/
theorem c4_saturating_bound_witness :
    ((5 : Nat) : Int) ≤ I64_MAX ∧
    I64_MIN ≤ sampleRecord.price_message.publish_time ∧
    sampleRecord.get_price_no_older_than_with_custom_verification_level 0 5
      none .Full =
      some (if ¬ sampleRecord.verification_level.gte .Full then
          .error .InsufficientVerificationLevel
        else
          match sampleRecord.get_price_unchecked none with
          | .error e => .error e
          | .ok price =>
            if min (price.publish_time + (5 : Nat)) I64_MAX < 0 then
              .error .PriceTooOld
            else .ok price) :=
  ⟨by decide, by decide,
   c4_saturating_bound sampleRecord 0 5 none .Full (by decide) (by decide)⟩

/-- C5: whenever the record's trust level is not `gte` the required level,
the validator reports `InsufficientVerificationLevel`, whatever the feed id
and age arguments are — the trust comparison is decided first. -/
theorem c5_trust_check_first (self : PriceUpdateV2) (now : Int)
    (maximum_age : Nat) (feed_id : Option (List Nat)) (lvl : VerificationLevel)
    (h : self.verification_level.gte lvl = false) :
    self.get_price_no_older_than_with_custom_verification_level now maximum_age
      feed_id lvl = some (.error .InsufficientVerificationLevel) :=
  get_price_custom_insufficient h now maximum_age feed_id

/-- Witness for C5: a `Partial 3` record, required level `Full`, a mismatched
feed id and an age argument that would otherwise panic — the trust error
still wins. -/
theorem c5_trust_check_first_witness :
    partialRecord.verification_level.gte .Full = false ∧
    partialRecord.get_price_no_older_than_with_custom_verification_level 0
      9223372036854775808 (some (List.replicate 32 1)) .Full =
      some (.error .InsufficientVerificationLevel) :=
  ⟨by decide,
   c5_trust_check_first partialRecord 0 9223372036854775808
     (some (List.replicate 32 1)) .Full (by decide)⟩

/-- C6 counterexample: a trusted record with `publish_time = i64::MIN` and
`max_age = 2^63` has `publish_time + max_age` exactly equal to `now = 0`, yet
the call aborts in the `u64 -> i64` unwrap instead of succeeding. -/
theorem c6_exact_equality_aborts :
    minTimeRecord.verification_level.gte .Full = true ∧
    minTimeRecord.price_message.publish_time + ((9223372036854775808 : Nat) : Int) = 0 ∧
    minTimeRecord.get_price_no_older_than_with_custom_verification_level 0
      9223372036854775808 none .Full = none :=
  ⟨by decide, by decide, rfl⟩

/-- C6 (amended): when the trust and feed-id checks pass and
`max_age ≤ i64::MAX`, the validator fails with `PriceTooOld` exactly when the
saturated `publish_time + max_age` is strictly below `now`; in particular
when `publish_time + max_age` exactly equals `now` it succeeds with the
projected price. -/
theorem c6_age_comparison_inclusive (self : PriceUpdateV2) (now : Int)
    (maximum_age : Nat) (feed_id : Option (List Nat)) (lvl : VerificationLevel)
    (htrust : self.verification_level.gte lvl = true)
    (hfeed : feed_id = none ∨ feed_id = some self.price_message.feed_id)
    (hma : (maximum_age : Int) ≤ I64_MAX)
    (hpt : I64_MIN ≤ self.price_message.publish_time)
    (hnow : now ≤ I64_MAX) :
    (self.get_price_no_older_than_with_custom_verification_level now maximum_age
        feed_id lvl = some (.error .PriceTooOld) ↔
      saturating_add_i64 self.price_message.publish_time maximum_age < now) ∧
    (self.price_message.publish_time + maximum_age = now →
      self.get_price_no_older_than_with_custom_verification_level now maximum_age
        feed_id lvl =
        some (.ok { price := self.price_message.price,
                    conf := self.price_message.conf,
                    exponent := self.price_message.exponent,
                    publish_time := self.price_message.publish_time })) := by
  have hok := get_price_unchecked_feed_ok hfeed
  have hrw := get_price_custom_ok htrust hok now maximum_age
  rw [u64_try_into_i64_of_le hma, Option.some_bind] at hrw
  constructor
  · rw [hrw]
    by_cases hlt :
        saturating_add_i64 self.price_message.publish_time maximum_age < now
    · rw [if_pos (not_le.mpr hlt)]
      exact ⟨fun _ => hlt, fun _ => rfl⟩
    · rw [if_neg (fun hc => hc (not_lt.mp hlt))]
      exact ⟨fun hc => absurd hc (by simp), fun hc => absurd hc hlt⟩
  · intro hsum
    rw [hrw]
    have hsat : saturating_add_i64 self.price_message.publish_time maximum_age
        = now := by
      rw [saturating_add_eq_min _ _ hpt (Int.natCast_nonneg _), hsum]
      exact min_eq_left hnow
    rw [if_neg (fun hc => hc hsat.symm.le)]

/-- Witness for C6 (amended): `publish_time = 1000`, `now = 1000`,
`max_age = 0` — the boundary case succeeds. -/
theorem c6_age_comparison_inclusive_witness :
    (sampleRecord.get_price_no_older_than_with_custom_verification_level 1000 0
        none .Full = some (.error .PriceTooOld) ↔
      saturating_add_i64 sampleRecord.price_message.publish_time 0 < 1000) ∧
    (sampleRecord.price_message.publish_time + (0 : Nat) = 1000 →
      sampleRecord.get_price_no_older_than_with_custom_verification_level 1000 0
        none .Full =
        some (.ok { price := sampleRecord.price_message.price,
                    conf := sampleRecord.price_message.conf,
                    exponent := sampleRecord.price_message.exponent,
                    publish_time := sampleRecord.price_message.publish_time })) :=
  c6_age_comparison_inclusive sampleRecord 1000 0 none .Full (by decide)
    (Or.inl rfl) (by decide) (by decide) (by decide)

/-- C10: the record decoder's behaviour depends only on the consumed prefix —
125 bytes when byte 32 is `0x01`, 126 bytes otherwise: two buffers agreeing on
that prefix decode identically, so trailing bytes are ignored. (Given C3,
"identically" means both abort at the same assertion.) -/
theorem c10_trailing_bytes_ignored :
    (∀ v w : List Nat, 125 ≤ v.length → v.get? 32 = some 1 →
      v.take 125 = w.take 125 →
      PriceUpdateV2.get_price_update_v2_from_bytes v =
        PriceUpdateV2.get_price_update_v2_from_bytes w) ∧
    (∀ v w : List Nat, 126 ≤ v.length → v.get? 32 ≠ some 1 →
      v.take 126 = w.take 126 →
      PriceUpdateV2.get_price_update_v2_from_bytes v =
        PriceUpdateV2.get_price_update_v2_from_bytes w) := by
  constructor
  · intro v w _ _ _
    rw [decode_eq_none, decode_eq_none]
  · intro v w _ _ _
    rw [decode_eq_none, decode_eq_none]

/-- Witness for C10: the §8 buffer against the same buffer with an extra
trailing byte. -/
theorem c10_trailing_bytes_ignored_witness :
    PriceUpdateV2.get_price_update_v2_from_bytes fullRecordBytes =
      PriceUpdateV2.get_price_update_v2_from_bytes (fullRecordBytes ++ [7]) :=
  c10_trailing_bytes_ignored.1 fullRecordBytes (fullRecordBytes ++ [7])
    (by decide) (by decide) (by decide)

end PythMin
